import Mathlib

/-!
Verification of the context-aware intent resolution engine of the
alfred-bot repository against its natural-language specification.

The Python source is shallowly embedded: pure functions become Lean
functions over `List Char` / `String` / `ℚ`; Python dictionaries with
optional keys become `Option`-valued record fields; `random.choice` is
modelled by an explicit `pick : Nat` parameter selecting an index
modulo the list length; fallible loading code returns `Except`.
Real-number scores are embedded as rationals `ℚ`, which reproduces the
decimal constants of the source exactly.
-/

namespace Alfred

/-! ## Text cleaning — `src/services/text_processor.py`, `_clean_text`

Python:
```
text = text.lower()
text = re.sub(r"[.!?,;:]", "", text)
text = re.sub(r"\s+", " ", text)
text = text.strip()
```
`str.lower` is modelled on the ASCII range (the characters exercised by
the knowledge base and the claims); `\s` is modelled by the ASCII
whitespace class matched by Python's `re` module. -/

/-- ASCII lowercasing of one character, the embedding of Python
`str.lower` restricted to ASCII. -/
def lowerChar (c : Char) : Char :=
  if 65 ≤ c.toNat ∧ c.toNat ≤ 90 then Char.ofNat (c.toNat + 32) else c

/-- A character is an ASCII uppercase letter. -/
def isUpperChar (c : Char) : Bool :=
  decide (65 ≤ c.toNat ∧ c.toNat ≤ 90)

/-- ASCII whitespace as matched by Python's `\s` (space, tab, newline,
carriage return, vertical tab, form feed). -/
def isWs (c : Char) : Bool :=
  c = ' ' || c = '\t' || c = '\n' || c = '\r' || c.toNat = 11 || c.toNat = 12

/-- The characters removed by `re.sub(r"[.!?,;:]", "", text)`:
basic sentence punctuation. -/
def isSentencePunct (c : Char) : Bool :=
  c = '.' || c = '!' || c = '?' || c = ',' || c = ';' || c = ':'

/-- Replace every maximal run of whitespace by a single space:
the embedding of `re.sub(r"\s+", " ", text)`.  The boolean argument
records whether the previous character belonged to a whitespace run. -/
def collapseAux : Bool → List Char → List Char
  | _, [] => []
  | prevWs, c :: cs =>
    if isWs c then
      if prevWs then collapseAux true cs else ' ' :: collapseAux true cs
    else c :: collapseAux false cs

/-- `re.sub(r"\s+", " ", text)`. -/
def collapseWs (l : List Char) : List Char := collapseAux false l

/-- Python `str.strip`: drop leading and trailing whitespace. -/
def stripChars (l : List Char) : List Char :=
  ((l.dropWhile isWs).reverse.dropWhile isWs).reverse

/-- `TextProcessor._clean_text`: lowercase, remove the sentence
punctuation characters, collapse whitespace runs, strip. -/
def cleanText (s : String) : String :=
  String.mk (stripChars (collapseWs ((s.data.map lowerChar).filter
    (fun c => !isSentencePunct c))))

/-- The cleaning applied to the query in
`VectorSearchService.search_intents`
(`cleaned_query = self.text_processor._clean_text(enhanced_query)`). -/
def searchTimeClean (query : String) : String := cleanText query

/-- The cleaning applied to each pattern at indexing time:
`index_knowledge_base` calls `preprocess_text`, which calls
`self._clean_text(text)`. -/
def indexTimeClean (pattern : String) : String := cleanText pattern

/-! ### Lemmas about the cleaning pipeline -/

theorem mem_collapseAux {a : Char} :
    ∀ (b : Bool) (l : List Char), a ∈ collapseAux b l → a = ' ' ∨ a ∈ l := by
  intro b l
  induction l generalizing b with
  | nil => simp [collapseAux]
  | cons c cs ih =>
    intro h
    simp only [collapseAux] at h
    by_cases hws : isWs c
    · simp only [hws, if_true] at h
      by_cases hb : b
      · subst hb
        simp only [if_true] at h
        rcases ih true h with h' | h'
        · exact Or.inl h'
        · exact Or.inr (List.mem_cons_of_mem _ h')
      · simp only [hb, if_false] at h
        rcases List.mem_cons.mp h with h' | h'
        · exact Or.inl h'
        · rcases ih true h' with h'' | h''
          · exact Or.inl h''
          · exact Or.inr (List.mem_cons_of_mem _ h'')
    · simp only [hws, if_false] at h
      rcases List.mem_cons.mp h with h' | h'
      · exact Or.inr (h' ▸ List.mem_cons_self _ _)
      · rcases ih false h' with h'' | h''
        · exact Or.inl h''
        · exact Or.inr (List.mem_cons_of_mem _ h'')

theorem mem_collapseWs {a : Char} {l : List Char} :
    a ∈ collapseWs l → a = ' ' ∨ a ∈ l :=
  mem_collapseAux false l

theorem mem_stripChars {a : Char} {l : List Char} (h : a ∈ stripChars l) :
    a ∈ l := by
  unfold stripChars at h
  rw [List.mem_reverse] at h
  have h1 := (List.dropWhile_sublist (l := (l.dropWhile isWs).reverse) isWs).mem h
  rw [List.mem_reverse] at h1
  exact (List.dropWhile_sublist isWs).mem h1

theorem mem_cleanText {a : Char} {s : String} (h : a ∈ (cleanText s).data) :
    a = ' ' ∨ ∃ c ∈ s.data, a = lowerChar c ∧ isSentencePunct a = false := by
  unfold cleanText at h
  simp only [String.data] at h
  have h1 := mem_stripChars h
  rcases mem_collapseWs h1 with h2 | h2
  · exact Or.inl h2
  · rcases List.mem_filter.mp h2 with ⟨h3, h4⟩
    rcases List.mem_map.mp h3 with ⟨c, hc, hce⟩
    exact Or.inr ⟨c, hc, hce.symm, by simpa using h4⟩

theorem lowerChar_not_upper (c : Char) : isUpperChar (lowerChar c) = false := by
  unfold lowerChar isUpperChar
  by_cases h : 65 ≤ c.toNat ∧ c.toNat ≤ 90
  · rw [if_pos h, decide_eq_false_iff_not]
    intro hcon
    have hround : ∀ n : Nat, n < 123 → (Char.ofNat n).toNat = n := by decide
    have h123 : c.toNat + 32 < 123 := by omega
    rw [hround _ h123] at hcon
    omega
  · rw [if_neg h, decide_eq_false_iff_not]
    exact h

theorem cleanText_chars (s : String) :
    ∀ a ∈ (cleanText s).data, isUpperChar a = false ∧ isSentencePunct a = false := by
  intro a ha
  rcases mem_cleanText ha with h | ⟨c, _, hae, hp⟩
  · subst h
    constructor <;> decide
  · subst hae
    exact ⟨lowerChar_not_upper c, hp⟩

/-! ## Conversation state — `src/models/conversation_state.py` -/

/-- `ConversationState(str, Enum)` with members GREETING, ONGOING,
CLOSING, ENDED. -/
inductive ConversationState where
  | greeting
  | ongoing
  | closing
  | ended
  deriving DecidableEq, Repr

/-! ## Context scorer — `src/services/vector_search.py`,
`VectorSearchService._calculate_context_score` -/

/-- The metadata fields of one retrieval result that the context scorer
and the engine read.  `none` models an absent dictionary key; Python
string truthiness (`if last_category and result_category:`) is modelled
by requiring the string to be non-empty as well. -/
structure ResultMeta where
  intentId : Option String
  category : Option String
  confidenceThreshold : Option ℚ
  deriving DecidableEq

/-- The part of the session context snapshot consulted by the scorer:
`context_variables.get("last_category")` and
`context_variables.get("last_intent")`. -/
structure SessionCtx where
  lastCategory : Option String
  lastIntent : Option String
  deriving DecidableEq

/-- Python truthiness of an optional string: present and non-empty. -/
def truthy : Option String → Bool
  | none => false
  | some s => !(s == "")

/-- The fixed adjacency table `flow_patterns` in
`_calculate_context_score`. -/
def flowPatterns (lastIntent : String) : List String :=
  if lastIntent = "greeting" then ["help", "thanks"]
  else if lastIntent = "help" then ["thanks", "goodbye"]
  else if lastIntent = "thanks" then ["goodbye", "help"]
  else []

/-- The category-consistency bonus: +0.2 for the same category, else
+0.1 for the greeting/farewell → help/thanks affinity, guarded by the
truthiness of both categories. -/
def categoryBonus (lastCategory resultCategory : Option String) : ℚ :=
  match lastCategory, resultCategory with
  | some lc, some rc =>
    if lc ≠ "" ∧ rc ≠ "" then
      if lc = rc then 2/10
      else if (lc = "greeting" ∨ lc = "farewell") ∧ (rc = "help" ∨ rc = "thanks")
      then 1/10
      else 0
    else 0
  | _, _ => 0

/-- The conversation-flow bonus: +0.15 when the candidate's intent is
among the expected next intents of the session's last intent. -/
def flowBonus (lastIntent resultIntentId : Option String) : ℚ :=
  match lastIntent, resultIntentId with
  | some li, some ri =>
    if li ≠ "" ∧ ri ≠ "" then (if ri ∈ flowPatterns li then 3/20 else 0) else 0
  | _, _ => 0

/-- The additive score accumulated by `_calculate_context_score`
before the final `min(score, 1.0)` cap.  A `none` context models the
`if not context: return 0.0` guard (absent or empty session context). -/
def rawContextScore (res : ResultMeta) (ctx : Option SessionCtx) : ℚ :=
  match ctx with
  | none => 0
  | some c => categoryBonus c.lastCategory res.category
      + flowBonus c.lastIntent res.intentId

/-- `_calculate_context_score`: the raw additive score capped at 1.0. -/
def calculateContextScore (res : ResultMeta) (ctx : Option SessionCtx) : ℚ :=
  min (rawContextScore res ctx) 1

/-! ## Score blending — `search_intents`, line
`final_score = (score * 0.7) + (context_score * 0.3)` -/

/-- The fixed 70/30 blending of similarity and context score. -/
def blendScore (score contextScore : ℚ) : ℚ :=
  score * (7/10) + contextScore * (3/10)

/-- One retrieval result as annotated by the scoring loop of
`search_intents`: similarity score from the vector store plus the
metadata the engine reads. -/
structure SearchResult where
  score : ℚ
  text : String
  meta : ResultMeta
  deriving DecidableEq

/-- The default confidence threshold of `VectorSearchService`
(`self.confidence_threshold = 0.6`). -/
def serviceConfidenceThreshold : ℚ := 6/10

/-- One result annotated by the `search_intents` scoring loop:
`final_score`, `context_score`, `original_score`, `threshold`. -/
structure ScoredResult where
  result : SearchResult
  finalScore : ℚ
  contextScore : ℚ
  originalScore : ℚ
  threshold : ℚ
  deriving DecidableEq

/-- The body of the scoring loop in `search_intents` for one result. -/
def scoreResult (res : SearchResult) (ctx : Option SessionCtx) : ScoredResult :=
  let contextScore := calculateContextScore res.meta ctx
  { result := res
    finalScore := blendScore res.score contextScore
    contextScore := contextScore
    originalScore := res.score
    threshold := res.meta.confidenceThreshold.getD serviceConfidenceThreshold }

/-! ## Conversation state update — `chatbot_engine.py`,
`ChatbotEngine._update_conversation_state` -/

/-- The optional new state computed from the chosen response's
`intent_id` and `category` (`new_state` in the Python source, `none`
for Python `None`). -/
def computeNewState (intentId category : String) : Option ConversationState :=
  if intentId = "greeting" then some .ongoing
  else if intentId = "goodbye" then some .closing
  else if category = "farewell" then some .closing
  else none

/-- The conversation state stored in the session after
`_update_conversation_state`: the update dictionary contains a
`conversation_state` key only when `new_state` is set, so the merge
keeps the current state otherwise. -/
def updateConversationState (intentId category : String)
    (current : ConversationState) : ConversationState :=
  (computeNewState intentId category).getD current

/-! ## Intent resolution engine — `src/services/chatbot_engine.py` -/

/-- Engine constant `self.confidence_threshold = 0.6`. -/
def engineConfidenceThreshold : ℚ := 6/10

/-- Engine constant `self.fallback_threshold = 0.3`. -/
def engineFallbackThreshold : ℚ := 3/10

/-- One entry of the `intent_matches` list built by `_classify_intent`:
the fields of the intent-match dictionary that the selection logic
reads.  Response variants are already in the canonical `(id, text)`
form (`_prepare_intent_response` parses the serialized payload into
exactly this shape). -/
structure IntentMatch where
  intentId : String
  confidence : ℚ
  originalScore : ℚ
  contextScore : ℚ
  category : String
  responses : List (String × String)
  meta : ResultMeta
  deriving DecidableEq

/-- The data of a prepared response dictionary as returned by
`_prepare_intent_response` / `_get_fallback_response`. -/
structure ResponseData where
  rtype : String
  intentId : String
  responseId : String
  confidence : ℚ
  response : String
  category : String
  deriving DecidableEq

/-- `random.choice` modelled by an explicit index `pick` taken modulo
the (non-empty) list length. -/
def pickChoice (l : List (String × String)) (pick : Nat) : String × String :=
  l.getD (pick % l.length) ("fallback_0", "I understand.")

/-- Lowercased word-substring checks used by
`_select_appropriate_response` ("help" / "assist" in the text). -/
def startsWithChars : List Char → List Char → Bool
  | _, [] => true
  | [], _ :: _ => false
  | h :: hs, n :: ns => h = n && startsWithChars hs ns

/-- Substring containment on character lists. -/
def hasSub (hay needle : List Char) : Bool :=
  (List.range (hay.length + 1)).any fun i => startsWithChars (hay.drop i) needle

/-- Number of whitespace-separated words, the embedding of Python
`len(text.split())`. -/
def wordCount (s : String) : Nat :=
  ((collapseWs s.data).splitOn ' ' |>.filter (fun w => w ≠ [])).length

/-- `ChatbotEngine._select_appropriate_response`: greeting intents get
the welcoming / short-variant heuristic, everything else a uniform
random choice. -/
def selectAppropriateResponse (responses : List (String × String))
    (messageCount : Nat) (category : String) (pick : Nat) : String × String :=
  if category = "greeting" then
    if messageCount ≤ 1 then
      let greetingResponses := responses.filter fun r =>
        hasSub (r.2.data.map lowerChar) "help".data
          || hasSub (r.2.data.map lowerChar) "assist".data
      if greetingResponses ≠ [] then pickChoice greetingResponses pick
      else pickChoice responses pick
    else
      let shortResponses := responses.filter fun r => wordCount r.2 ≤ 3
      if shortResponses ≠ [] then pickChoice shortResponses pick
      else pickChoice responses pick
  else pickChoice responses pick

/-- `ChatbotEngine._prepare_intent_response` (with the response payload
already parsed into `(id, text)` pairs). -/
def prepareIntentResponse (m : IntentMatch) (messageCount : Nat)
    (pick : Nat) : ResponseData :=
  let selected := selectAppropriateResponse m.responses messageCount m.category pick
  { rtype := "intent_match"
    intentId := m.intentId
    responseId := selected.1
    confidence := m.confidence
    response := selected.2
    category := m.category }

/-- The hard-coded last-resort dictionary at the end of
`_get_fallback_response`. -/
def hardcodedFallback : ResponseData :=
  { rtype := "fallback"
    intentId := "fallback"
    responseId := "hardcoded_fallback_0"
    confidence := 0
    response := "I'm sorry, I didn't understand that. Could you please rephrase?"
    category := "fallback" }

/-- `ChatbotEngine._get_fallback_response`.  The argument is the
response list of the `fallback` intent of the fallback knowledge base:
`none` models a load failure or a missing intent, and the guard
`if fallback_intent and fallback_intent.responses:` makes an empty
list fall through to the hard-coded backstop as well. -/
def getFallbackResponse (fallbackResponses : Option (List (String × String)))
    (pick : Nat) : ResponseData :=
  match fallbackResponses with
  | some (r :: rs) =>
    let selected := pickChoice (r :: rs) pick
    { rtype := "fallback"
      intentId := "fallback"
      responseId := selected.1
      confidence := 0
      response := selected.2
      category := "fallback" }
  | _ => hardcodedFallback

/-- The `flow_rules` table of `ChatbotEngine._is_flow_appropriate`,
returning `(allowed_intents, preferred_intents)`.  The dictionary has
no entry for ENDED or for a missing state, so `flow_rules.get(state,
{})` yields empty lists there. -/
def flowRules : Option ConversationState → List String × List String
  | some .greeting => (["greeting", "help", "thanks"], ["greeting", "help"])
  | some .ongoing => (["help", "thanks", "goodbye", "weather", "greeting"],
      ["help", "thanks"])
  | some .closing => (["goodbye", "thanks"], ["goodbye"])
  | _ => ([], [])

/-- `ChatbotEngine._is_flow_appropriate`: preferred intents pass
outright, allowed intents need confidence ≥ fallback_threshold + 0.1,
anything else needs confidence ≥ the full confidence threshold. -/
def isFlowAppropriate (m : IntentMatch)
    (conversationState : Option ConversationState) : Bool :=
  let rules := flowRules conversationState
  if m.intentId ∈ rules.2 then true
  else if m.intentId ∈ rules.1 then
    decide (m.confidence ≥ engineFallbackThreshold + 1/10)
  else decide (m.confidence ≥ engineConfidenceThreshold)

/-- The acceptance threshold resolved for the best match in
`_select_response`.  The source currently reads
`intent_threshold = self.confidence_threshold  # Always use service
threshold for debugging`, with the intent-specific lookup commented
out, so the metadata override is ignored. -/
def resolveIntentThreshold (_best : IntentMatch) : ℚ :=
  engineConfidenceThreshold

/-- The acceptance-threshold resolution described by the spec and kept
in the source as the commented-out `ORIGINAL CODE`: the intent's
metadata override when present, else the engine default. -/
def resolveIntentThresholdOriginal (best : IntentMatch) : ℚ :=
  best.meta.confidenceThreshold.getD engineConfidenceThreshold

/-- `ChatbotEngine._select_response`: accept the best match above the
resolved threshold; between the fallback threshold and the resolved
threshold accept only when the flow-appropriateness check passes;
otherwise fall back. -/
def selectResponse (intentMatches : List IntentMatch)
    (conversationState : Option ConversationState) (messageCount : Nat)
    (fallbackResponses : Option (List (String × String)))
    (pick : Nat) : ResponseData :=
  match intentMatches with
  | [] => getFallbackResponse fallbackResponses pick
  | best :: _ =>
    if best.confidence ≥ resolveIntentThreshold best then
      prepareIntentResponse best messageCount pick
    else if best.confidence ≥ engineFallbackThreshold
        ∧ isFlowAppropriate best conversationState then
      prepareIntentResponse best messageCount pick
    else getFallbackResponse fallbackResponses pick

/-- The failing input for claim C2: a best match carrying a metadata
confidence-threshold override of 0.4 and a blended score of 0.5. -/
def debugThresholdMatch : IntentMatch :=
  { intentId := "weather", confidence := 1/2, originalScore := 1/2,
    contextScore := 0, category := "general", responses := [("w_0", "Sunny.")],
    meta := ⟨some "weather", some "general", some (4/10)⟩ }

/-! ## Session history — `src/services/session_manager.py`,
`SessionManager.update_session` -/

/-- Python's slice `l[-k:]`, which keeps the last `k` elements when
`k > 0` but yields the whole list when `k = 0` (`l[-0:] == l[0:]`). -/
def pySliceLast {α : Type} (l : List α) (k : Nat) : List α :=
  if k = 0 then l else l.drop (l.length - k)

/-- The history part of `update_session` for one appended message:
append, then truncate with `conversation_history[-max_history:]` when
the length exceeds `max_history`. -/
def updateSessionHistory {α : Type} (maxHistory : Nat) (history : List α)
    (message : α) : List α :=
  let h := history ++ [message]
  if h.length > maxHistory then pySliceLast h maxHistory else h

/-- The stored history after appending a whole sequence of messages one
update at a time to an initially empty session. -/
def runHistoryUpdates {α : Type} (maxHistory : Nat) (messages : List α) : List α :=
  messages.foldl (updateSessionHistory maxHistory) []

/-- The last `k` elements of a list (the truncation the spec asks
for). -/
def lastK {α : Type} (k : Nat) (l : List α) : List α :=
  l.drop (l.length - k)

/-! ## Knowledge-base loading — `src/models/intent.py` and
`src/services/knowledge_manager.py`

`Intent.validate_id` normalizes each id
(`v.strip().lower().replace(" ", "_")`, empty after strip is an
error), `KnowledgeBase.validate_unique_ids` rejects duplicates, and
`KnowledgeManager.load_knowledge_base` wraps any validation failure in
a `ConfigurationError`.  The embedding keeps the id list of the
document; the `Except String` error models `ConfigurationError`. -/

/-- `Intent.validate_id`: strip, reject an empty result, lowercase,
replace spaces by underscores. -/
def normalizeIntentId (s : String) : Except String String :=
  if stripChars s.data = [] then .error "Intent ID cannot be empty"
  else .ok (String.mk (((stripChars s.data).map lowerChar).map
    fun c => if c = ' ' then '_' else c))

/-- Pydantic validates each intent in order; the first failing id
aborts the load. -/
def normalizeAllIds : List String → Except String (List String)
  | [] => .ok []
  | s :: ss =>
    match normalizeIntentId s, normalizeAllIds ss with
    | .ok i, .ok is => .ok (i :: is)
    | .error e, _ => .error e
    | .ok _, .error e => .error e

/-- `load_knowledge_base` restricted to the id data: normalize every
intent id, then `validate_unique_ids` rejects the document when the
normalized ids are not pairwise distinct.  Every failure surfaces as a
`ConfigurationError`. -/
def loadKnowledgeBaseIds (rawIds : List String) : Except String (List String) :=
  match normalizeAllIds rawIds with
  | .error e => .error e
  | .ok ids => if ids.Nodup then .ok ids else .error "All intent IDs must be unique"

/-! ## Supporting lemmas -/

theorem categoryBonus_bounds (lc rc : Option String) :
    0 ≤ categoryBonus lc rc ∧ categoryBonus lc rc ≤ 2/10 := by
  cases lc with
  | none => exact ⟨by norm_num [categoryBonus], by norm_num [categoryBonus]⟩
  | some l =>
    cases rc with
    | none => exact ⟨by norm_num [categoryBonus], by norm_num [categoryBonus]⟩
    | some r =>
      simp only [categoryBonus]
      constructor <;> split_ifs <;> norm_num

theorem flowBonus_bounds (li ri : Option String) :
    0 ≤ flowBonus li ri ∧ flowBonus li ri ≤ 3/20 := by
  cases li with
  | none => exact ⟨by norm_num [flowBonus], by norm_num [flowBonus]⟩
  | some l =>
    cases ri with
    | none => exact ⟨by norm_num [flowBonus], by norm_num [flowBonus]⟩
    | some r =>
      simp only [flowBonus]
      constructor <;> split_ifs <;> norm_num

theorem rawContextScore_bounds (res : ResultMeta) (ctx : Option SessionCtx) :
    0 ≤ rawContextScore res ctx ∧ rawContextScore res ctx ≤ 7/20 := by
  cases ctx with
  | none => exact ⟨by norm_num [rawContextScore], by norm_num [rawContextScore]⟩
  | some c =>
    simp only [rawContextScore]
    have h1 := categoryBonus_bounds c.lastCategory res.category
    have h2 := flowBonus_bounds c.lastIntent res.intentId
    exact ⟨add_nonneg h1.1 h2.1, by linarith [h1.2, h2.2]⟩

theorem pickChoice_mem (l : List (String × String)) (pick : Nat) (h : l ≠ []) :
    pickChoice l pick ∈ l := by
  unfold pickChoice
  have hlen : pick % l.length < l.length := Nat.mod_lt _ (List.length_pos.mpr h)
  rw [List.getD_eq_getElem?_getD, List.getElem?_eq_getElem hlen]
  exact List.getElem_mem hlen

/-! ## Claims -/

/-- Claim C3, counterexample to the claim as stated: the cleaning
function keeps punctuation that is not basic sentence punctuation
(the `#` survives) and removes the basic sentence punctuation itself
(the final `.` is gone), the opposite of "strips punctuation except
for basic sentence punctuation". -/
theorem claim_C3_counterexample :
    cleanText "Hi# there." = "hi# there"
    ∧ (cleanText "Hi# there.").data.contains '#' = true
    ∧ (cleanText "Hi# there.").data.contains '.' = false := by
  refine ⟨?_, ?_, ?_⟩ <;> decide

/-- Claim C3, amended: the text cleaning applied to a query before
embedding lowercases the text, strips exactly the basic sentence
punctuation characters `.!?,;:` (other punctuation is kept), and
collapses whitespace, and for every text it is the same function that
is applied to pattern texts at indexing time: query-time cleaning and
index-time cleaning of the same string yield the same result, and the
cleaned text contains no uppercase letter and no sentence-punctuation
character. -/
theorem claim_C3_cleaning (s : String) :
    searchTimeClean s = indexTimeClean s
    ∧ ∀ a ∈ (cleanText s).data, isUpperChar a = false ∧ isSentencePunct a = false :=
  ⟨rfl, cleanText_chars s⟩

/-- Witness for claim C3 at a concrete input. -/
theorem claim_C3_cleaning_witness :
    'h' ∈ (cleanText "Hi# there.").data
    ∧ (isUpperChar 'h' = false ∧ isSentencePunct 'h' = false) :=
  ⟨by decide, (claim_C3_cleaning "Hi# there.").2 'h' (by decide)⟩

/-- Claim C4: for every retrieval candidate with similarity `s` and
context score `c`, the blended final score annotated by
`search_intents` equals exactly `0.7 * s + 0.3 * c`; in particular
`s = 0.8`, `c = 0.5` give `0.71`. -/
theorem claim_C4_blended_score :
    (∀ (res : SearchResult) (ctx : Option SessionCtx),
      (scoreResult res ctx).finalScore
        = 7/10 * res.score + 3/10 * (scoreResult res ctx).contextScore)
    ∧ blendScore (8/10) (5/10) = 71/100 := by
  constructor
  · intro res ctx
    simp only [scoreResult, blendScore]
    ring
  · norm_num [blendScore]

/-- Claim C5: after the response intent is chosen, intent id
`"greeting"` gives ONGOING; otherwise intent id `"goodbye"` or
category `"farewell"` gives CLOSING; in every other case the stored
state is unchanged; the rule never newly produces ENDED. -/
theorem claim_C5_state_update (i c : String) (s : ConversationState) :
    (i = "greeting" → updateConversationState i c s = .ongoing)
    ∧ (i ≠ "greeting" → (i = "goodbye" ∨ c = "farewell") →
        updateConversationState i c s = .closing)
    ∧ (i ≠ "greeting" → i ≠ "goodbye" → c ≠ "farewell" →
        updateConversationState i c s = s)
    ∧ (s ≠ .ended → updateConversationState i c s ≠ .ended) := by
  unfold updateConversationState computeNewState
  by_cases h1 : i = "greeting" <;> by_cases h2 : i = "goodbye" <;>
    by_cases h3 : c = "farewell" <;>
    simp [h1, h2, h3]

/-- Witness for claim C5: the intent "weather" from ONGOING leaves the
state at ONGOING, and "goodbye" moves to CLOSING. -/
theorem claim_C5_state_update_witness :
    updateConversationState "weather" "general" .ongoing = .ongoing
    ∧ updateConversationState "goodbye" "general" .ongoing = .closing :=
  ⟨(claim_C5_state_update "weather" "general" .ongoing).2.2.1
      (by decide) (by decide) (by decide),
    (claim_C5_state_update "goodbye" "general" .ongoing).2.1
      (by decide) (Or.inl rfl)⟩

/-- Claim C6: for every retrieval candidate and session context the
context score is in `[0, 1]`, and it is exactly `0` when the session
context is absent. -/
theorem claim_C6_context_score_range (res : ResultMeta) (ctx : Option SessionCtx) :
    0 ≤ calculateContextScore res ctx
    ∧ calculateContextScore res ctx ≤ 1
    ∧ (ctx = none → calculateContextScore res ctx = 0) := by
  have h := rawContextScore_bounds res ctx
  refine ⟨le_min h.1 (by norm_num), min_le_right _ _, ?_⟩
  rintro rfl
  simp [calculateContextScore, rawContextScore]

/-- Witness for claim C6 at a concrete candidate with absent context. -/
theorem claim_C6_context_score_range_witness :
    0 ≤ calculateContextScore ⟨some "help", some "help", none⟩ none
    ∧ calculateContextScore ⟨some "help", some "help", none⟩ none ≤ 1
    ∧ calculateContextScore ⟨some "help", some "help", none⟩ none = 0 :=
  have h := claim_C6_context_score_range ⟨some "help", some "help", none⟩ none
  ⟨h.1, h.2.1, h.2.2 rfl⟩

/-- Claim C10: the context score is at most `0.35` (the `+0.2` and
`+0.1` category bonuses are mutually exclusive and the flow bonus adds
at most `+0.15`), so the final `min(score, 1.0)` cap never changes the
returned value. -/
theorem claim_C10_context_score_cap (res : ResultMeta) (ctx : Option SessionCtx) :
    calculateContextScore res ctx ≤ 7/20
    ∧ calculateContextScore res ctx = rawContextScore res ctx := by
  have h := rawContextScore_bounds res ctx
  have hmin : calculateContextScore res ctx = rawContextScore res ctx :=
    min_eq_left (le_trans h.2 (by norm_num))
  exact ⟨hmin ▸ h.2, hmin⟩

/-- Claim C1: when retrieval returned at least one candidate and the
best candidate's blended final score is below its resolved acceptance
threshold but at least the fallback threshold 0.3, and the
flow-appropriateness check passes for it, `_select_response` accepts
that candidate and returns its intent response rather than the
fallback response. -/
theorem claim_C1_medium_confidence_flow (best : IntentMatch)
    (rest : List IntentMatch) (state : Option ConversationState)
    (messageCount pick : Nat) (fb : Option (List (String × String)))
    (hlow : best.confidence < resolveIntentThreshold best)
    (hfb : engineFallbackThreshold ≤ best.confidence)
    (hflow : isFlowAppropriate best state = true) :
    selectResponse (best :: rest) state messageCount fb pick
      = prepareIntentResponse best messageCount pick
    ∧ (selectResponse (best :: rest) state messageCount fb pick).rtype
      = "intent_match"
    ∧ (selectResponse (best :: rest) state messageCount fb pick).intentId
      = best.intentId
    ∧ (selectResponse (best :: rest) state messageCount fb pick).confidence
      = best.confidence := by
  have hsel : selectResponse (best :: rest) state messageCount fb pick
      = prepareIntentResponse best messageCount pick := by
    simp only [selectResponse]
    rw [if_neg (not_le.mpr hlow), if_pos ⟨hfb, hflow⟩]
  exact ⟨hsel, by rw [hsel]; rfl, by rw [hsel]; rfl, by rw [hsel]; rfl⟩

/-- Witness for claim C1: a "help" candidate with blended score 0.45
in the ONGOING state (where "help" is a preferred intent) is accepted
as an intent response. -/
theorem claim_C1_medium_confidence_flow_witness :
    ((9 : ℚ)/20 < 6/10 ∧ (3 : ℚ)/10 ≤ 9/20)
    ∧ (selectResponse
        [{ intentId := "help", confidence := 9/20, originalScore := 9/20,
           contextScore := 0, category := "general",
           responses := [("help_0", "Sure.")],
           meta := ⟨some "help", some "general", none⟩ }]
        (some .ongoing) 2 none 0).rtype = "intent_match" :=
  ⟨⟨by norm_num, by norm_num⟩,
    (claim_C1_medium_confidence_flow
      { intentId := "help", confidence := 9/20, originalScore := 9/20,
        contextScore := 0, category := "general",
        responses := [("help_0", "Sure.")],
        meta := ⟨some "help", some "general", none⟩ }
      [] (some .ongoing) 2 0 none
      (by norm_num [resolveIntentThreshold, engineConfidenceThreshold])
      (by norm_num [engineFallbackThreshold])
      (by decide)).2.1⟩

/-- Claim C2 is contradicted by the code: `_select_response` resolves
the acceptance threshold to the engine default unconditionally (the
intent-specific lookup is commented out "FOR DEBUGGING"), so a best
candidate carrying a metadata override 0.4 and blended score 0.5 —
which the claim says must be accepted against its override — is sent
to the fallback path instead (state CLOSING makes the
flow-appropriateness check fail for the unrelated intent). -/
theorem claim_C2_threshold_ignored :
    resolveIntentThreshold debugThresholdMatch = 6/10
    ∧ resolveIntentThresholdOriginal debugThresholdMatch = 4/10
    ∧ debugThresholdMatch.confidence
        ≥ resolveIntentThresholdOriginal debugThresholdMatch
    ∧ (selectResponse [debugThresholdMatch] (some .closing) 2 none 0).rtype
        = "fallback" := by
  have hflow : isFlowAppropriate debugThresholdMatch (some .closing) = false := by
    simp only [isFlowAppropriate, flowRules, debugThresholdMatch]
    rw [if_neg (by decide), if_neg (by decide)]
    exact decide_eq_false (by norm_num [engineConfidenceThreshold])
  refine ⟨rfl, rfl, by norm_num [debugThresholdMatch, resolveIntentThresholdOriginal], ?_⟩
  simp only [selectResponse]
  rw [if_neg (by norm_num [debugThresholdMatch, resolveIntentThreshold,
        engineConfidenceThreshold]),
    if_neg (by simp [hflow])]
  rfl

/-- Claim C9: whenever no retrieval candidate is accepted the result
of the fallback path has intent id "fallback", confidence 0, and a
non-empty response text — also when the fallback knowledge source
failed to load (`none`), where the hard-coded backstop text is
returned; and `_select_response` with no candidates takes exactly this
path.  The hypothesis is the invariant guaranteed by knowledge-base
validation: every loaded response text is non-empty. -/
theorem claim_C9_fallback_properties
    (fb : Option (List (String × String))) (pick : Nat)
    (state : Option ConversationState) (messageCount : Nat)
    (hvalid : ∀ p ∈ fb.getD [], p.2 ≠ "") :
    ((getFallbackResponse fb pick).intentId = "fallback"
      ∧ (getFallbackResponse fb pick).confidence = 0
      ∧ (getFallbackResponse fb pick).response ≠ "")
    ∧ selectResponse [] state messageCount fb pick
      = getFallbackResponse fb pick := by
  have hhard : hardcodedFallback.response ≠ "" := by decide
  refine ⟨?_, rfl⟩
  rcases fb with _ | (_ | ⟨r, rs⟩)
  · exact ⟨rfl, rfl, hhard⟩
  · exact ⟨rfl, rfl, hhard⟩
  · refine ⟨rfl, rfl, ?_⟩
    have hmem : pickChoice (r :: rs) pick ∈ r :: rs :=
      pickChoice_mem (r :: rs) pick (by simp)
    exact hvalid _ hmem

/-- Witness for claim C9, at a loaded fallback list and at a failed
load. -/
theorem claim_C9_fallback_properties_witness :
    ((getFallbackResponse (some [("fb_0", "Could you rephrase?")]) 3).intentId
        = "fallback"
      ∧ (getFallbackResponse (some [("fb_0", "Could you rephrase?")]) 3).confidence
        = 0
      ∧ (getFallbackResponse (some [("fb_0", "Could you rephrase?")]) 3).response
        ≠ "")
    ∧ (getFallbackResponse none 0).response ≠ "" :=
  ⟨(claim_C9_fallback_properties (some [("fb_0", "Could you rephrase?")]) 3
      (some .greeting) 1 (by decide)).1,
    ((claim_C9_fallback_properties none 0 (some .greeting) 1
      (by decide)).1).2.2⟩

/-! ### Supporting lemmas for the knowledge-base and session claims -/

theorem normalizeAllIds_ok_mem {l is : List String}
    (h : normalizeAllIds l = .ok is) :
    ∀ i ∈ is, ∃ s, normalizeIntentId s = .ok i := by
  induction l generalizing is with
  | nil =>
    simp only [normalizeAllIds] at h
    cases h
    simp
  | cons s ss ih =>
    simp only [normalizeAllIds] at h
    cases hn : normalizeIntentId s with
    | error e => rw [hn] at h; cases h
    | ok i =>
      cases hns : normalizeAllIds ss with
      | error e => rw [hn, hns] at h; cases h
      | ok is' =>
        rw [hn, hns] at h
        cases h
        intro j hj
        rcases List.mem_cons.mp hj with rfl | hj'
        · exact ⟨s, hn⟩
        · exact ih hns j hj'

theorem normalizeAllIds_forall₂ {l is : List String}
    (h : normalizeAllIds l = .ok is) :
    List.Forall₂ (fun s i => normalizeIntentId s = .ok i) l is := by
  induction l generalizing is with
  | nil =>
    simp only [normalizeAllIds] at h
    cases h
    exact List.Forall₂.nil
  | cons s ss ih =>
    simp only [normalizeAllIds] at h
    cases hn : normalizeIntentId s with
    | error e => rw [hn] at h; cases h
    | ok i =>
      cases hns : normalizeAllIds ss with
      | error e => rw [hn, hns] at h; cases h
      | ok is' =>
        rw [hn, hns] at h
        cases h
        exact List.Forall₂.cons hn (ih hns)

theorem normalizeIntentId_ok_chars {s i : String}
    (h : normalizeIntentId s = .ok i) :
    ∀ a ∈ i.data, isUpperChar a = false ∧ a ≠ ' ' := by
  unfold normalizeIntentId at h
  by_cases ht : stripChars s.data = []
  · rw [if_pos ht] at h; cases h
  · rw [if_neg ht] at h
    cases h
    intro a ha
    simp only [String.data] at ha
    rcases List.mem_map.mp ha with ⟨b, hb, hba⟩
    rcases List.mem_map.mp hb with ⟨c, _, hcb⟩
    by_cases hsp : b = ' '
    · rw [hsp, if_pos rfl] at hba
      subst hba
      constructor <;> decide
    · rw [if_neg hsp] at hba
      subst hba
      exact ⟨hcb ▸ lowerChar_not_upper c, hsp⟩

theorem updateSessionHistory_lastK {α : Type} (k : Nat) (hk : 1 ≤ k)
    (p : List α) (m : α) :
    updateSessionHistory k (lastK k p) m = lastK k (p ++ [m]) := by
  simp only [updateSessionHistory, lastK, pySliceLast]
  have hlen : (p ++ [m]).length = p.length + 1 := by simp
  by_cases hlt : p.length < k
  · have h0 : p.length - k = 0 := by omega
    rw [h0, List.drop_zero]
    rw [if_neg (by simp; omega)]
    rw [hlen]
    have h1 : p.length + 1 - k = 0 := by omega
    rw [h1, List.drop_zero]
  · have hdlen : (p.drop (p.length - k)).length = k := by
      rw [List.length_drop]; omega
    have hcond : (p.drop (p.length - k) ++ [m]).length > k := by simp [hdlen]
    rw [if_pos hcond]
    rw [if_neg (by omega)]
    have hdrop1 : (p.drop (p.length - k) ++ [m]).length - k = 1 := by
      simp [hdlen]
    rw [hdrop1]
    rw [List.drop_append_of_le_length (by omega)]
    rw [List.drop_drop]
    rw [hlen, List.drop_append_of_le_length (by omega)]
    congr 2
    omega

/-! ### Remaining claims -/

/-- Claim C7: loading a knowledge-base document whose intents contain
duplicate ids fails with a ConfigurationError (the `Except.error`
case), and in every successfully loaded knowledge base all intent ids
are unique, contain no uppercase letter and no space (spaces were
replaced by underscores). -/
theorem claim_C7_kb_ids (rawIds ids : List String) :
    (loadKnowledgeBaseIds rawIds = .ok ids →
      ids.Nodup ∧ ∀ i ∈ ids, ∀ a ∈ i.data, isUpperChar a = false ∧ a ≠ ' ')
    ∧ (¬ rawIds.Nodup → loadKnowledgeBaseIds rawIds ≠ .ok ids) := by
  constructor
  · intro h
    unfold loadKnowledgeBaseIds at h
    cases hna : normalizeAllIds rawIds with
    | error e => rw [hna] at h; cases h
    | ok ids0 =>
      rw [hna] at h
      have h' : (if ids0.Nodup then Except.ok ids0
          else Except.error "All intent IDs must be unique") = Except.ok ids := h
      by_cases hnd : ids0.Nodup
      · rw [if_pos hnd] at h'
        cases h'
        refine ⟨hnd, ?_⟩
        intro i hi a ha
        obtain ⟨s, hs⟩ := normalizeAllIds_ok_mem hna i hi
        exact normalizeIntentId_ok_chars hs a ha
      · rw [if_neg hnd] at h'; cases h' 
  · intro hdup h
    unfold loadKnowledgeBaseIds at h
    cases hna : normalizeAllIds rawIds with
    | error e => rw [hna] at h; cases h
    | ok ids0 =>
      rw [hna] at h
      have h' : (if ids0.Nodup then Except.ok ids0
          else Except.error "All intent IDs must be unique") = Except.ok ids := h
      by_cases hnd : ids0.Nodup
      · obtain ⟨hlen, hget⟩ := List.forall₂_iff_get.mp (normalizeAllIds_forall₂ hna)
        rw [List.nodup_iff_injective_get] at hdup
        unfold Function.Injective at hdup
        push_neg at hdup
        obtain ⟨a, b, hab, hne⟩ := hdup
        have ha2 : a.1 < ids0.length := by omega
        have hb2 : b.1 < ids0.length := by omega
        have h1 := hget a.1 a.2 ha2
        have h2 := hget b.1 b.2 hb2
        simp only [Fin.eta] at h1 h2
        rw [hab] at h1
        have hok := h1.symm.trans h2
        have heq : ids0.get ⟨a.1, ha2⟩ = ids0.get ⟨b.1, hb2⟩ := by
          injection hok
        have hfin := List.nodup_iff_injective_get.mp hnd heq
        injection hfin with hv
        exact hne (Fin.ext hv)
      · rw [if_neg hnd] at h'; cases h' 

/-- Witness for claim C7: the document with ids "Hello World" and
"Bye" loads into the normalized unique ids, and the document with a
duplicated id "hi" is rejected. -/
theorem claim_C7_kb_ids_witness :
    ((["hello_world", "bye"] : List String).Nodup
      ∧ ∀ i ∈ (["hello_world", "bye"] : List String), ∀ a ∈ i.data,
          isUpperChar a = false ∧ a ≠ ' ')
    ∧ loadKnowledgeBaseIds ["hi", "hi"] ≠ .ok ["hi"] :=
  ⟨(claim_C7_kb_ids ["Hello World", "Bye"] ["hello_world", "bye"]).1 (by rfl),
    (claim_C7_kb_ids ["hi", "hi"] ["hi"]).2 (by decide)⟩

/-- Claim C8, counterexample to the claim as stated: with
`max_history = 0` the Python slice `history[-0:]` keeps the whole
list, so the stored history exceeds the configured bound after a
single update. -/
theorem claim_C8_counterexample :
    runHistoryUpdates 0 ["a"] = ["a"]
    ∧ ¬ (runHistoryUpdates 0 ["a"]).length ≤ 0 := by
  constructor
  · rfl
  · decide

/-- Claim C8, amended: for every configured `max_history ≥ 1`, after
each update the stored conversation history has length at most
`max_history` and consists of exactly the most recent messages in
their original order (oldest entries evicted first): it equals the
`max_history`-suffix of the full message sequence. -/
theorem claim_C8_history_bound (maxH : Nat) (hk : 1 ≤ maxH)
    (msgs : List String) :
    runHistoryUpdates maxH msgs = lastK maxH msgs
    ∧ (runHistoryUpdates maxH msgs).length ≤ maxH := by
  have heq : runHistoryUpdates maxH msgs = lastK maxH msgs := by
    induction msgs using List.reverseRecOn with
    | nil => simp [runHistoryUpdates, lastK]
    | append_singleton p m ih =>
      unfold runHistoryUpdates at ih ⊢
      rw [List.foldl_append, List.foldl_cons, List.foldl_nil, ih]
      exact updateSessionHistory_lastK maxH hk p m
  refine ⟨heq, ?_⟩
  rw [heq]
  unfold lastK
  rw [List.length_drop]
  omega

/-- Witness for claim C8: with `max_history = 3`, appending five
messages leaves exactly the three most recent in order. -/
theorem claim_C8_history_bound_witness :
    (1 ≤ 3)
    ∧ (runHistoryUpdates 3 ["a", "b", "c", "d", "e"]
        = lastK 3 ["a", "b", "c", "d", "e"]
      ∧ (runHistoryUpdates 3 ["a", "b", "c", "d", "e"]).length ≤ 3) :=
  ⟨by decide, claim_C8_history_bound 3 (by decide) ["a", "b", "c", "d", "e"]⟩

end Alfred
